import Mathlib

/-!
Shallow embedding of json-server-rs (src/main.rs): a read-only HTTP server
that exposes each `name.json` file of a data directory as `GET /api/name`.

The embedding follows the source:
  - `get_json_files` (main.rs lines 186-208): scan of the directory entries,
    keeping the stem of every entry whose extension is exactly `json`;
  - `get_apis` (lines 137-146), `get_serve_json` (lines 153-182),
    `handler_404` (lines 133-135): the request handlers;
  - the router table (lines 97-108) as a `route` function on paths;
  - the CLI defaults (lines 31-39) and the trailing-slash normalization of
    the data directory (lines 79-84).

File reads and `serde_json` parsing are external effects; the handlers take
them as explicit oracles (`readFile : String → Except String String`,
`fromStr : String → Except String Json`), and `get_serve_json` additionally
returns the list of paths it read, so that absence of file-system access is
a provable statement.
-/

/-- JSON values as produced by the parser oracle (modelling serde_json
`Value`; numbers are abstracted as integers, which is enough for every
claim here since no claim computes with numerals). -/
inductive Json where
  | null : Json
  | bool (b : Bool) : Json
  | num (n : Int) : Json
  | str (s : String) : Json
  | arr (elems : List Json) : Json
  | obj (fields : List (String × Json)) : Json
deriving Repr

/-- Response bodies: the server produces plain text (`health_check`,
`handler_404`), HTML (`root`) or JSON (the `/api` handlers). -/
inductive Body where
  | text (s : String) : Body
  | html (s : String) : Body
  | json (v : Json) : Body
deriving Repr

/-- An HTTP response: status code and body. -/
structure Response where
  status : Nat
  body : Body
deriving Repr

/-- Shared application state (main.rs lines 23-26): the normalized data
directory and the index of resource names built at startup. -/
structure AppState where
  data_dir : String
  files : List String

/-- Splits a reversed file name at the first dot, i.e. at the LAST dot of
the original name: returns (reversed extension, reversed stem), or `none`
when the name has no dot. -/
def revSplitDot : List Char → Option (List Char × List Char)
  | [] => none
  | c :: cs =>
    if c = '.' then some ([], cs)
    else
      match revSplitDot cs with
      | some (e, s) => some (c :: e, s)
      | none => none

/-- Model of Rust `Path::extension` on a single file-name component: the
part after the last dot, except that a name with no dot, or whose only dot
is the leading character, has no extension. -/
def pathExt (f : String) : Option String :=
  match revSplitDot f.toList.reverse with
  | some (_, []) => none
  | some (e, _ :: _) => some (String.mk e.reverse)
  | none => none

/-- Model of Rust `Path::file_stem` on a single file-name component: the
part before the last dot when an extension exists, the whole name
otherwise. -/
def pathStem (f : String) : String :=
  match revSplitDot f.toList.reverse with
  | some (_, []) => f
  | some (_, s₁ :: s) => String.mk ((s₁ :: s).reverse)
  | none => f

/-- The body of the loop of `get_json_files` (main.rs lines 191-206) for a
single entry: the stem when the extension is exactly `json`, nothing
otherwise. -/
def jsonEntryStem (f : String) : Option String :=
  match pathExt f with
  | some ext => if ext = "json" then some (pathStem f) else none
  | none => none

/-- Embedding of `get_json_files` (main.rs lines 186-208) on the list of
directory-entry names: keep, in enumeration order, the stem of every entry
whose extension is exactly `json`. -/
def get_json_files (entries : List String) : List String :=
  entries.filterMap jsonEntryStem

/-- A file-system node: a regular file with contents, or a directory with
children. `fs::read_dir` sees only the names of the direct children. -/
inductive FsNode where
  | file (name : String) (contents : String) : FsNode
  | dir (name : String) (children : List FsNode) : FsNode
deriving Repr

/-- Name of a file-system node. -/
def FsNode.name : FsNode → String
  | .file n _ => n
  | .dir n _ => n

/-- Model of `fs::read_dir` on a directory given by its direct children:
the names of the direct entries, files and subdirectories alike. -/
def readDir (children : List FsNode) : List String :=
  children.map FsNode.name

/-- The index built at startup (spec name `BuildIndex`): `get_json_files`
applied to the directory enumeration. -/
def BuildIndex (children : List FsNode) : List String :=
  get_json_files (readDir children)

/-- Embedding of `handler_404` (main.rs lines 133-135): the fallback for
unmatched routes, a plain-text 404. -/
def handler_404 : Response :=
  ⟨404, Body.text "nothing to see here"⟩

/-- Embedding of `root` (main.rs lines 125-127). -/
def rootHandler : Response :=
  ⟨200, Body.html "<h1>Hello, World!</h1>"⟩

/-- Embedding of `health_check` (main.rs lines 129-131). -/
def health_check : Response :=
  ⟨200, Body.text "ok"⟩

/-- Embedding of `get_apis` (main.rs lines 137-146): 404 with a structured
error when the index is empty, otherwise 200 with the names serialized as a
JSON array of strings in index order. -/
def get_apis (state : AppState) : Response :=
  if state.files.isEmpty then
    ⟨404, Body.json (Json.obj [("error", Json.str "not found")])⟩
  else
    ⟨200, Body.json (Json.arr (state.files.map Json.str))⟩

/-- Embedding of `get_serve_json` (main.rs lines 153-182). The file system
is the oracle `readFile` (`fs::read_to_string`: contents on success, an
error detail on failure); the JSON parser is the oracle `fromStr`
(`serde_json::from_str`: a value on success, a diagnostic message on
failure). The second component of the result is the list of paths read, in
order, so the absence of file-system access is observable. -/
def get_serve_json (state : AppState)
    (readFile : String → Except String String)
    (fromStr : String → Except String Json)
    (file : String) : Response × List String :=
  if ¬ state.files.contains file then
    (⟨404, Body.json (Json.obj [("error", Json.str "file not found")])⟩, [])
  else
    let path := state.data_dir ++ "/" ++ file ++ ".json"
    match readFile path with
    | .ok contents =>
      match fromStr contents with
      | .ok v => (⟨200, Body.json v⟩, [path])
      | .error e =>
        (⟨500, Body.json (Json.obj [("error", Json.str e)])⟩, [path])
    | .error _ =>
      (⟨500, Body.json (Json.obj [("error", Json.str "Failed to read file")])⟩, [path])

/-- The handler a request path is dispatched to. -/
inductive RouteTarget where
  | root : RouteTarget
  | healthCheck : RouteTarget
  | apis : RouteTarget
  | serveJson (file : String) : RouteTarget
  | fallback : RouteTarget
deriving Repr, DecidableEq

/-- Embedding of the router table (main.rs lines 97-108): the static routes
`/`, `/_health_check`, `/api` and `/api/`, the captured route
`/api/\x7bfile\x7d` whose parameter is one nonempty slash-free segment, and
the fallback for everything else. -/
def route (p : String) : RouteTarget :=
  if p = "/" then .root
  else if p = "/_health_check" then .healthCheck
  else if p = "/api" then .apis
  else if p = "/api/" then .apis
  else if p.startsWith "/api/" then
    let f := p.drop 5
    if f.contains '/' then .fallback else .serveJson f
  else .fallback

/-- Embedding of the CLI defaults (main.rs lines 31-39): `port` and
`data_dir` with their `default_value_t` values. -/
structure Args where
  port : Nat
  data_dir : String
deriving Repr

/-- The `Args` value produced when no command-line arguments are supplied:
each field takes its declared default (main.rs lines 33 and 37). -/
def default_args : Args :=
  { port := 3333, data_dir := "./data" }

/-- Model of Rust `str::ends_with` for a single character: the last
character of the string equals it. -/
def endsWithChar (d : String) (c : Char) : Bool :=
  match d.toList.reverse with
  | [] => false
  | c₀ :: _ => c₀ = c

/-- Embedding of the data-directory normalization (main.rs lines 79-84):
when the configured path ends with a slash, the code stores
`data_dir.replace(with a slash, with nothing)` — which removes EVERY slash
in the string — and otherwise stores the path unchanged. -/
def normalize_data_dir (d : String) : String :=
  if endsWithChar d '/' then String.mk (d.toList.filter fun c => c ≠ '/')
  else d

/-! Supporting lemmas. -/

/-- Two strings with the same character list are equal. -/
theorem toList_injective {a b : String} (h : a.toList = b.toList) : a = b := by
  cases a; cases b
  exact congrArg String.mk h

/-- A string has an empty character list exactly when it is empty. -/
theorem toList_eq_nil_iff (s : String) : s.toList = [] ↔ s = "" := by
  constructor
  · intro h
    cases s
    exact congrArg String.mk h
  · intro h
    subst h
    rfl

/-- Soundness of the splitter: a successful split reassembles the input. -/
theorem revSplitDot_eq {r : List Char} {e s : List Char}
    (h : revSplitDot r = some (e, s)) : r = e ++ '.' :: s := by
  induction r generalizing e with
  | nil => exact absurd h (by simp [revSplitDot])
  | cons c cs ih =>
    rw [revSplitDot] at h
    split at h
    · rename_i hc
      simp only [Option.some.injEq, Prod.mk.injEq] at h
      obtain ⟨he, hs⟩ := h
      subst he; subst hs; subst hc
      rfl
    · rename_i hc
      split at h
      · rename_i e₀ s₀ hrec
        simp only [Option.some.injEq, Prod.mk.injEq] at h
        obtain ⟨he, hs⟩ := h
        subst he; subst hs
        simpa using ih hrec
      · exact absurd h (by simp)

/-- Completeness of the splitter: splitting at an explicit last dot. -/
theorem revSplitDot_append {e : List Char} (s : List Char) (h : '.' ∉ e) :
    revSplitDot (e ++ '.' :: s) = some (e, s) := by
  induction e with
  | nil => simp [revSplitDot]
  | cons c e ih =>
    have hc : ¬ c = '.' := fun hc => h (by simp [hc])
    rw [List.cons_append, revSplitDot, if_neg hc,
      ih (fun hm => h (List.mem_cons_of_mem _ hm))]

/-- Characterization of the entries kept by `get_json_files`: an entry
contributes the stem `n` exactly when its name is `n ++ ".json"` for a
nonempty `n` (so the extension is lowercase `json` by exact match, and a
bare `.json` name contributes nothing). -/
theorem jsonEntryStem_eq_some_iff (f n : String) :
    jsonEntryStem f = some n ↔ n ≠ "" ∧ f = n ++ ".json" := by
  constructor
  · intro h
    rw [jsonEntryStem] at h
    cases hr : revSplitDot f.toList.reverse with
    | none => rw [pathExt, hr] at h; exact absurd h (by simp)
    | some p =>
      obtain ⟨e, s'⟩ := p
      cases s' with
      | nil => rw [pathExt, hr] at h; exact absurd h (by simp)
      | cons s₁ s =>
        simp only [pathExt, pathStem, hr] at h
        by_cases hj : String.mk e.reverse = "json"
        · rw [if_pos hj] at h
          have hn : String.mk ((s₁ :: s).reverse) = n := by
            simpa using h
          have he : e.reverse = ['j', 's', 'o', 'n'] := congrArg String.toList hj
          have hf : f.toList.reverse = e ++ '.' :: s₁ :: s := revSplitDot_eq hr
          have hfl : f.toList = (s₁ :: s).reverse ++ ['.'] ++ e.reverse := by
            have := congrArg List.reverse hf
            simpa [List.reverse_append] using this
          constructor
          · intro hne
            subst hne
            have : (s₁ :: s).reverse = ([] : List Char) := congrArg String.toList hn
            simp at this
          · apply toList_injective
            rw [hfl, he]
            have hnl : n.toList = (s₁ :: s).reverse := (congrArg String.toList hn).symm
            show _ = n.toList ++ ('.' :: ['j', 's', 'o', 'n'])
            rw [hnl]
            simp
        · rw [if_neg hj] at h
          exact absurd h (by simp)
  · rintro ⟨hne, hf⟩
    subst hf
    have hsplit : revSplitDot (n ++ ".json").toList.reverse
        = some (['n', 'o', 's', 'j'], n.toList.reverse) := by
      have : (n ++ ".json").toList.reverse
          = ['n', 'o', 's', 'j'] ++ '.' :: n.toList.reverse := by
        show (n.toList ++ ".json".toList).reverse = _
        rw [List.reverse_append]
        rfl
      rw [this]
      exact revSplitDot_append _ (by decide)
    cases hn : n.toList.reverse with
    | nil =>
      exact absurd ((toList_eq_nil_iff n).mp (by simpa using hn)) hne
    | cons c cs =>
      simp only [jsonEntryStem, pathExt, pathStem, hsplit, hn]
      rw [if_pos (by decide)]
      have : String.mk ((c :: cs).reverse) = n := by
        rw [← hn, List.reverse_reverse]
        cases n
        rfl
      rw [this]

/-- The unknown-name branch of `get_serve_json`: when the requested name is
not in the index the handler returns the structured 404 and reads nothing. -/
theorem get_serve_json_not_mem (state : AppState)
    (readFile : String → Except String String)
    (fromStr : String → Except String Json) (file : String)
    (h : file ∉ state.files) :
    get_serve_json state readFile fromStr file
      = (⟨404, Body.json (Json.obj [("error", Json.str "file not found")])⟩, []) := by
  rw [get_serve_json,
    if_pos (fun hc => h (List.mem_of_elem_eq_true hc))]

/-! Claim theorems. -/

/-- C1: for a name absent from the index, `GET /api/name` answers 404 with
body `{"error": "file not found"}` and performs no file-system access: the
result is the structured 404 with an empty read trace, for every
file-system and parser oracle. -/
theorem C1_unknown_name_404_no_read (state : AppState)
    (readFile : String → Except String String)
    (fromStr : String → Except String Json) (file : String)
    (h : file ∉ state.files) :
    get_serve_json state readFile fromStr file
      = (⟨404, Body.json (Json.obj [("error", Json.str "file not found")])⟩, []) :=
  get_serve_json_not_mem state readFile fromStr file h

/-- Witness for C1 at a concrete request. -/
theorem C1_witness :
    get_serve_json ⟨"./data", ["articles"]⟩ (fun _ => Except.ok "1")
        (fun _ => Except.ok Json.null) "missing"
      = (⟨404, Body.json (Json.obj [("error", Json.str "file not found")])⟩, []) :=
  C1_unknown_name_404_no_read _ _ _ _ (by decide)

/-- C2 counterexample: the index is not restricted to regular files. A
subdirectory named `sub.json` is itself indexed as `sub` (the code never
checks the entry type), even though no FILE named `sub.json` exists
directly in the directory; the `x.json` inside the subdirectory is not
scanned. -/
theorem C2_counterexample_dir_entry :
    "sub" ∈ BuildIndex [FsNode.dir "sub.json" [FsNode.file "x.json" "1"]] ∧
      (¬ ∃ c, FsNode.file ("sub" ++ ".json") c
          ∈ [FsNode.dir "sub.json" [FsNode.file "x.json" "1"]]) ∧
      "x" ∉ BuildIndex [FsNode.dir "sub.json" [FsNode.file "x.json" "1"]] := by
  refine ⟨by decide, ?_, by decide⟩
  rintro ⟨c, hc⟩
  simp at hc

/-- C2 (amended): a name `n` appears in the index iff `n` is nonempty and
some DIRECTORY ENTRY — regular file or subdirectory alike — named
`n ++ ".json"` (exact lowercase extension) exists directly in the scanned
directory; entries inside subdirectories are excluded. -/
theorem C2_index_membership (n : String) (D : List FsNode) :
    n ∈ BuildIndex D ↔ n ≠ "" ∧ ∃ e ∈ D, FsNode.name e = n ++ ".json" := by
  rw [BuildIndex, get_json_files]
  simp only [List.mem_filterMap, readDir, List.mem_map]
  constructor
  · rintro ⟨f, ⟨e, he, hname⟩, hstem⟩
    obtain ⟨hne, hf⟩ := (jsonEntryStem_eq_some_iff f n).mp hstem
    exact ⟨hne, e, he, hname.trans hf⟩
  · rintro ⟨hne, e, he, hname⟩
    exact ⟨n ++ ".json", ⟨e, he, hname⟩, (jsonEntryStem_eq_some_iff _ n).mpr ⟨hne, rfl⟩⟩

/-- C3: for a name in the index whose backing file reads back as `contents`
parsing to the JSON value `v`, the handler answers 200 with exactly `v` as
body (hence a body semantically equal to the file's JSON), having read
exactly the backing file. -/
theorem C3_valid_json_served (state : AppState)
    (readFile : String → Except String String)
    (fromStr : String → Except String Json) (file contents : String) (v : Json)
    (hmem : file ∈ state.files)
    (hread : readFile (state.data_dir ++ "/" ++ file ++ ".json") = Except.ok contents)
    (hparse : fromStr contents = Except.ok v) :
    get_serve_json state readFile fromStr file
      = (⟨200, Body.json v⟩, [state.data_dir ++ "/" ++ file ++ ".json"]) := by
  rw [get_serve_json, if_neg (not_not_intro (List.elem_eq_true_of_mem hmem))]
  simp only [hread, hparse]

/-- Witness for C3 at a concrete state, file system and parser. -/
theorem C3_witness :
    get_serve_json ⟨"data", ["a"]⟩
        (fun p => if p = "data/a.json" then Except.ok "1" else Except.error "io")
        (fun s => if s = "1" then Except.ok (Json.num 1) else Except.error "bad") "a"
      = (⟨200, Body.json (Json.num 1)⟩, ["data/a.json"]) :=
  C3_valid_json_served ⟨"data", ["a"]⟩
    (fun p => if p = "data/a.json" then Except.ok "1" else Except.error "io")
    (fun s => if s = "1" then Except.ok (Json.num 1) else Except.error "bad")
    "a" "1" (Json.num 1) (by decide) rfl rfl

/-- C4: `/api` and `/api/` both dispatch to the listing handler, which
answers 404 with `{"error": "not found"}` on an empty index and otherwise
200 with the resource names as a JSON array of strings in index order. -/
theorem C4_api_listing :
    route "/api" = RouteTarget.apis ∧ route "/api/" = RouteTarget.apis ∧
      ∀ state : AppState,
        (state.files = [] →
          get_apis state
            = ⟨404, Body.json (Json.obj [("error", Json.str "not found")])⟩) ∧
        (state.files ≠ [] →
          get_apis state = ⟨200, Body.json (Json.arr (state.files.map Json.str))⟩) := by
  refine ⟨by decide, by decide, fun state => ⟨fun h => ?_, fun h => ?_⟩⟩
  · rw [get_apis, if_pos (by simp [h])]
  · rw [get_apis, if_neg (by simp [h])]

/-- Witness for C4 at an empty and a nonempty index. -/
theorem C4_witness :
    get_apis ⟨"./data", []⟩
        = ⟨404, Body.json (Json.obj [("error", Json.str "not found")])⟩ ∧
      get_apis ⟨"./data", ["articles", "starwars"]⟩
        = ⟨200, Body.json (Json.arr [Json.str "articles", Json.str "starwars"])⟩ := by
  refine ⟨(C4_api_listing.2.2 ⟨"./data", []⟩).1 rfl, ?_⟩
  have h := (C4_api_listing.2.2 ⟨"./data", ["articles", "starwars"]⟩).2 (by simp)
  simpa using h

/-- C5: for a name in the index whose file reads back but fails to parse
with diagnostic `m`, the handler answers 500 with `{"error": m}`. -/
theorem C5_parse_failure_500 (state : AppState)
    (readFile : String → Except String String)
    (fromStr : String → Except String Json) (file contents m : String)
    (hmem : file ∈ state.files)
    (hread : readFile (state.data_dir ++ "/" ++ file ++ ".json") = Except.ok contents)
    (hparse : fromStr contents = Except.error m) :
    get_serve_json state readFile fromStr file
      = (⟨500, Body.json (Json.obj [("error", Json.str m)])⟩,
          [state.data_dir ++ "/" ++ file ++ ".json"]) := by
  rw [get_serve_json, if_neg (not_not_intro (List.elem_eq_true_of_mem hmem))]
  simp only [hread, hparse]

/-- Witness for C5 at a concrete unparsable file. -/
theorem C5_witness :
    get_serve_json ⟨"data", ["invalid"]⟩
        (fun p => if p = "data/invalid.json" then Except.ok "nope" else Except.error "io")
        (fun _ => Except.error "expected value at line 1 column 1") "invalid"
      = (⟨500, Body.json (Json.obj
            [("error", Json.str "expected value at line 1 column 1")])⟩,
          ["data/invalid.json"]) :=
  C5_parse_failure_500 ⟨"data", ["invalid"]⟩
    (fun p => if p = "data/invalid.json" then Except.ok "nope" else Except.error "io")
    (fun _ => Except.error "expected value at line 1 column 1")
    "invalid" "nope" "expected value at line 1 column 1" (by decide) rfl rfl

/-- C6: for a name in the index whose read fails with ANY underlying error
detail `e`, the handler answers 500 with exactly the fixed body
`{"error": "Failed to read file"}` — the response does not depend on `e`,
so no path or internal detail is leaked. -/
theorem C6_read_failure_500 (state : AppState)
    (readFile : String → Except String String)
    (fromStr : String → Except String Json) (file e : String)
    (hmem : file ∈ state.files)
    (hread : readFile (state.data_dir ++ "/" ++ file ++ ".json") = Except.error e) :
    get_serve_json state readFile fromStr file
      = (⟨500, Body.json (Json.obj [("error", Json.str "Failed to read file")])⟩,
          [state.data_dir ++ "/" ++ file ++ ".json"]) := by
  rw [get_serve_json, if_neg (not_not_intro (List.elem_eq_true_of_mem hmem))]
  simp only [hread]

/-- Witness for C6 at a concrete failing read. -/
theorem C6_witness :
    get_serve_json ⟨"data", ["gone"]⟩
        (fun _ => Except.error "No such file or directory (os error 2)")
        (fun _ => Except.ok Json.null) "gone"
      = (⟨500, Body.json (Json.obj [("error", Json.str "Failed to read file")])⟩,
          ["data/gone.json"]) :=
  C6_read_failure_500 ⟨"data", ["gone"]⟩
    (fun _ => Except.error "No such file or directory (os error 2)")
    (fun _ => Except.ok Json.null)
    "gone" "No such file or directory (os error 2)" (by decide) rfl

/-- C7: the two 404 responses have distinct shapes: the route fallback is a
plain-text 404, while an unknown resource name on the known route yields a
404 whose body is JSON and never plain text. -/
theorem C7_distinct_404_shapes (state : AppState)
    (readFile : String → Except String String)
    (fromStr : String → Except String Json) (file : String)
    (h : file ∉ state.files) :
    handler_404 = ⟨404, Body.text "nothing to see here"⟩ ∧
    (get_serve_json state readFile fromStr file).1.status = 404 ∧
    (∃ v, (get_serve_json state readFile fromStr file).1.body = Body.json v) ∧
    ∀ s, (get_serve_json state readFile fromStr file).1.body ≠ Body.text s := by
  rw [get_serve_json_not_mem state readFile fromStr file h]
  exact ⟨rfl, rfl, ⟨_, rfl⟩, fun s hs => by simp at hs⟩

/-- Witness for C7 at a concrete request. -/
theorem C7_witness :
    handler_404 = ⟨404, Body.text "nothing to see here"⟩ ∧
    (get_serve_json ⟨"./data", ["a"]⟩ (fun _ => Except.ok "1")
        (fun _ => Except.ok Json.null) "b").1.status = 404 ∧
    (∃ v, (get_serve_json ⟨"./data", ["a"]⟩ (fun _ => Except.ok "1")
        (fun _ => Except.ok Json.null) "b").1.body = Body.json v) ∧
    ∀ s, (get_serve_json ⟨"./data", ["a"]⟩ (fun _ => Except.ok "1")
        (fun _ => Except.ok Json.null) "b").1.body ≠ Body.text s :=
  C7_distinct_404_shapes _ _ _ _ (by decide)

/-- C8: evaluating the normalization at the failing input `"./data/"`: the
code removes EVERY slash, storing `".data"`, not `"./data"` as the claim
(only the trailing separator removed) requires; a path without a trailing
slash is kept unchanged. -/
theorem C8_normalize_at_failing_input :
    normalize_data_dir "./data/" = ".data" ∧
      normalize_data_dir "./data/" ≠ "./data" ∧
      normalize_data_dir "./data" = "./data" := by
  exact ⟨by decide, by decide, by decide⟩

/-- C9 counterexample: the declared default port is 3333, not 3000. -/
theorem C9_counterexample_default_port :
    default_args.port = 3333 ∧ default_args.port ≠ 3000 :=
  ⟨rfl, by decide⟩

/-- C9 (amended): with no command-line arguments, the port defaults to 3333
and the data directory path defaults to `./data`. -/
theorem C9_defaults_amended :
    default_args.port = 3333 ∧ default_args.data_dir = "./data" :=
  ⟨rfl, rfl⟩

/-- C10: a directory entry named exactly `.json` contributes nothing to the
index, wherever it occurs (the implementation sees no extension on it),
while a dotfile such as `.hidden.json` is indexed under the resource name
`.hidden`. -/
theorem C10_dotfile_entries (pre post : List FsNode) (c₁ c₂ : String) :
    BuildIndex (pre ++ FsNode.file ".json" c₁ :: post) = BuildIndex (pre ++ post) ∧
    BuildIndex (pre ++ FsNode.file ".hidden.json" c₂ :: post)
      = BuildIndex pre ++ ".hidden" :: BuildIndex post := by
  have h₁ : jsonEntryStem ".json" = none := by decide
  have h₂ : jsonEntryStem ".hidden.json" = some ".hidden" := by decide
  constructor
  · simp only [BuildIndex, get_json_files, readDir, List.map_append, List.map_cons,
      List.filterMap_append, List.filterMap_cons, FsNode.name, h₁]
  · simp only [BuildIndex, get_json_files, readDir, List.map_append, List.map_cons,
      List.filterMap_append, List.filterMap_cons, FsNode.name, h₂]
